import Mathlib

/-!
Shallow embedding of `src/langchain-agents.py`: the dialogue-agent classes,
the dialogue simulator, the bid parser and the bid-collection/selection
algorithm, together with proofs of the specification claims.

Conventions of the embedding:
* Python exceptions are modelled with `Except PyErr`; `PyErr.valueError`
  is the transient/retryable kind (`ValueError`), `PyErr.indexError` models
  `IndexError`, `PyErr.otherError` every other (fatal) kind.
* The generative backend (`ChatOpenAI.__call__`) is an external collaborator;
  it is modelled as a function `List Message → Except PyErr String`.
* Strings are Lean `String`s over `Char`; the ASCII fragment of Python's
  `re` digit class and of `int()` is modelled (the bid format in the spec is
  a run of ASCII digits).
* Mutating methods are translated in state-passing style: a method that in
  Python mutates `self` returns the new agent/simulator value; methods whose
  bodies contain no write to `self` (`send`, `bid`) return the unchanged
  value paired with their result, mirroring the source statement by statement.
-/

/-- Kinds of Python exceptions relevant to the program: `valueError` is the
transient kind retried by the tenacity decorator, `indexError` models
`IndexError` (e.g. `message_history[-1]` on an empty list, or an
out-of-range roster index), `otherError` any other, fatal, kind. -/
inductive PyErr where
  | valueError
  | indexError
  | otherError
deriving DecidableEq

deriving instance DecidableEq for Except

/-- Message roles of the backend call contract (`SystemMessage`,
`HumanMessage`, `AIMessage`). -/
inductive Role where
  | system
  | user
  | assistant
deriving DecidableEq

/-- One role-tagged message handed to the backend. -/
structure Message where
  role : Role
  content : String
deriving DecidableEq

/-- The constant first transcript entry set by `DialogueAgent.reset`
(line 32 of the source). -/
def sentinelLine : String := "Here is the conversation so far."

/-- State of `DialogueAgent` (source lines 18-51): display name, system
instructions (content of the `SystemMessage`), the precomputed
`self.prefix = f"{self.name}: "` (named `prefixString` here because
the source's field name is a Lean keyword), and the private transcript
`self.message_history`. -/
structure DialogueAgent where
  name : String
  system_message : String
  prefixString : String
  message_history : List String
deriving DecidableEq

/-- Embedding of `DialogueAgent.reset` (source lines 31-32): the transcript becomes the
single sentinel line. -/
def DialogueAgent.reset (a : DialogueAgent) : DialogueAgent :=
  { a with message_history := [sentinelLine] }

/-- Embedding of `DialogueAgent.__init__` (source lines 19-29): stores name, system
message and `prefix`, then calls `self.reset()` which installs the sentinel
transcript. -/
def DialogueAgent.init (name system_message : String) : DialogueAgent :=
  DialogueAgent.reset
    { name := name
      system_message := system_message
      prefixString := name ++ ": "
      message_history := [] }

/-- Python `"\n".join(l)`. -/
def joinLines : List String → String
  | [] => ""
  | [x] => x
  | x :: y :: rest => x ++ "\n" ++ joinLines (y :: rest)

/-- The request `send` builds (source lines 39-44): the agent's system
message followed by one human message holding the transcript joined by
newlines with the trailing `"<name>: "` prompt fragment. -/
def DialogueAgent.sendRequest (a : DialogueAgent) : List Message :=
  [⟨Role.system, a.system_message⟩,
   ⟨Role.user, joinLines (a.message_history ++ [a.prefixString])⟩]

/-- Embedding of `DialogueAgent.send` (source lines 34-45): applies the backend to the
built request and returns its response content.  The method body contains
no write to `self`, so the state component is the unchanged agent; a
backend failure is the result's `Except.error` component (no local
handling). -/
def DialogueAgent.send (model : List Message → Except PyErr String)
    (a : DialogueAgent) : DialogueAgent × Except PyErr String :=
  (a, model a.sendRequest)

/-- Embedding of `DialogueAgent.receive` (source lines 47-51): appends
`f"{name}: {message}"` to the transcript. -/
def DialogueAgent.receive (a : DialogueAgent) (name message : String) :
    DialogueAgent :=
  { a with message_history := a.message_history ++ [name ++ ": " ++ message] }

/-- State of `BiddingDialogueAgent` (source lines 95-118): a
`DialogueAgent` together with the bidding template text. -/
structure BiddingDialogueAgent extends DialogueAgent where
  bidding_template : String
deriving DecidableEq

/-- The characters of the `\x7bmessage_history\x7d` placeholder. -/
def holeHistory : List Char := String.toList "\x7bmessage_history\x7d"

/-- The characters of the `\x7brecent_message\x7d` placeholder. -/
def holeRecent : List Char := String.toList "\x7brecent_message\x7d"

/-- Embedding of `PromptTemplate(...).format(message_history=h, recent_message=r)`
(source lines 110-116): single left-to-right pass over the template,
replacing each occurrence of either named placeholder by its binding;
substituted text is emitted verbatim, never rescanned (Python
`str.format` semantics). -/
def renderBiddingTemplate (h r : List Char) : List Char → List Char
  | [] => []
  | c :: rest =>
    if holeHistory.isPrefixOf (c :: rest) then
      h ++ renderBiddingTemplate h r (List.drop (holeHistory.length - 1) rest)
    else if holeRecent.isPrefixOf (c :: rest) then
      r ++ renderBiddingTemplate h r (List.drop (holeRecent.length - 1) rest)
    else
      c :: renderBiddingTemplate h r rest
termination_by l => l.length
decreasing_by
  · simp only [List.length_drop, List.length_cons]
    omega
  · simp only [List.length_drop, List.length_cons]
    omega
  · simp only [List.length_cons]
    omega

/-- The bidding prompt `bid` renders for an agent whose most recent
transcript line is `recent` (source lines 110-116). -/
def BiddingDialogueAgent.bidPrompt (b : BiddingDialogueAgent)
    (recent : String) : String :=
  String.mk
    (renderBiddingTemplate (joinLines b.message_history).data recent.data
      b.bidding_template.data)

/-- Embedding of `BiddingDialogueAgent.bid` (source lines 106-118): renders the bidding
template with the joined transcript and `message_history[-1]`, sends it as
one system-role message to the backend, and returns the raw response.
Accessing `message_history[-1]` on an empty transcript raises `IndexError`;
the body contains no write to `self`. -/
def BiddingDialogueAgent.bid (model : List Message → Except PyErr String)
    (b : BiddingDialogueAgent) : BiddingDialogueAgent × Except PyErr String :=
  match b.message_history.getLast? with
  | none => (b, Except.error PyErr.indexError)
  | some recent => (b, model [⟨Role.system, b.bidPrompt recent⟩])

/-- ASCII decimal digit (the `\d` of the bid regex restricted to ASCII). -/
def isAsciiDigit (c : Char) : Bool :=
  48 ≤ c.toNat && c.toNat ≤ 57

/-- Embedding of `re.search(r"<(\d+)>", text)` (the regex of `bid_parser`, source lines
215-217): scan left to right for the first position where `<` is followed
by a nonempty run of digits and then `>`; return the captured digit run. -/
def reSearchBid : List Char → Option (List Char)
  | [] => none
  | c :: rest =>
    if c = '<' ∧ rest.takeWhile isAsciiDigit ≠ [] ∧
        (rest.dropWhile isAsciiDigit).head? = some '>' then
      some (rest.takeWhile isAsciiDigit)
    else
      reSearchBid rest

/-- Embedding of `bid_parser.parse(text)["bid"]` (source lines 210-217).  `bid_parser`
is a langchain `RegexParser` configured with `default_output_key="bid"`:
on a regex match the capture group is returned; on no match the parser
does NOT raise but returns the whole input text as the value of the
default output key (langchain `RegexParser.parse` semantics). -/
def bid_parser_parse (text : String) : String :=
  match reSearchBid text.data with
  | some ds => String.mk ds
  | none => text

/-- ASCII whitespace stripped by Python `int()` before parsing
(space, tab, newline, carriage return, vertical tab, form feed). -/
def isPySpace (c : Char) : Bool :=
  c.toNat = 32 || c.toNat = 9 || c.toNat = 10 ||
  c.toNat = 13 || c.toNat = 11 || c.toNat = 12

/-- Decimal value of a digit run. -/
def digitsVal (l : List Char) : Nat :=
  l.foldl (fun acc c => 10 * acc + (c.toNat - 48)) 0

/-- Continuation of a Python base-10 integer literal after its first digit:
digits, with single underscores allowed only between digits.  Returns the
digit characters with the underscores removed. -/
def pyDigRest : List Char → Option (List Char)
  | [] => some []
  | c :: rest =>
    if c = '_' then
      match rest with
      | [] => none
      | d :: rest' =>
        if isAsciiDigit d then (pyDigRest rest').map (fun l => d :: l) else none
    else if isAsciiDigit c then (pyDigRest rest).map (fun l => c :: l)
    else none

/-- Unsigned part of a Python base-10 integer literal: a first digit then
`pyDigRest`. -/
def pyNatCore (l : List Char) : Option Nat :=
  match l with
  | [] => none
  | c :: rest =>
    if isAsciiDigit c then (pyDigRest rest).map (fun ds => digitsVal (c :: ds))
    else none

/-- Signed part of a Python base-10 integer literal: one optional sign,
then the unsigned literal. -/
def pyIntCore : List Char → Option Int
  | [] => none
  | c :: rest =>
    if c = '+' then (pyNatCore rest).map (fun n => (n : Int))
    else if c = '-' then (pyNatCore rest).map (fun n => -(n : Int))
    else (pyNatCore (c :: rest)).map (fun n => (n : Int))

/-- Python `int(s)` on the ASCII fragment: strip surrounding whitespace,
allow one optional sign, then a base-10 literal; `none` models the
`ValueError` raised on anything else. -/
def pyIntOfString (s : String) : Option Int :=
  pyIntCore ((s.data.dropWhile isPySpace).reverse.dropWhile isPySpace).reverse

/-- Embedding of `int(bid_parser.parse(bid_string)["bid"])` (source line 573):
`ValueError` when the extracted text does not parse as an integer. -/
def parseBidInt (text : String) : Except PyErr Int :=
  match pyIntOfString (bid_parser_parse text) with
  | some n => Except.ok n
  | none => Except.error PyErr.valueError

/-- One attempt of the body of `ask_for_bid` (source lines 568-574) given
the outcome of the `agent.bid()` call: a raised error of the bid call
propagates, a returned string goes through the parser and `int`. -/
def attemptBid (r : Except PyErr String) : Except PyErr Int :=
  match r with
  | Except.error e => Except.error e
  | Except.ok s => parseBidInt s

/-- Embedding of `ask_for_bid` (source lines 559-574) under its tenacity decorator:
`stop_after_attempt(2)`, `wait_none()`, `retry_if_exception_type(ValueError)`,
`retry_error_callback = 0`.  `tries k` is the outcome of the `agent.bid()`
call on attempt `k` (the agent's state, hence the prompt, is unchanged
between attempts; only the backend response may differ).  A `ValueError`
(transient backend failure or parse failure) on the first attempt triggers
exactly one immediate retry; two `ValueError`s yield the fallback bid `0`;
any other error kind propagates at once. -/
def ask_for_bid (tries : Nat → Except PyErr String) : Except PyErr Int :=
  match attemptBid (tries 0) with
  | Except.ok n => Except.ok n
  | Except.error PyErr.valueError =>
    match attemptBid (tries 1) with
    | Except.ok n => Except.ok n
    | Except.error PyErr.valueError => Except.ok 0
    | Except.error e => Except.error e
  | Except.error e => Except.error e

/-- Embedding of `np.max(bids)` for a nonempty list (source line 586). -/
def maxValueOf (bids : List Int) : Int :=
  match bids with
  | [] => 0
  | b :: rest => rest.foldl max b

/-- Embedding of `np.where(bids == max_value)[0]` (source line 587): the indices, in
increasing order, whose bid equals the maximum. -/
def maxIndicesOf (bids : List Int) : List Nat :=
  (List.range bids.length).filter (fun i => bids.getD i 0 = maxValueOf bids)

/-- Embedding of `select_next_speaker` (source lines 579-597).  `askBid agent` models
`ask_for_bid(agent)` (the bids are collected sequentially in roster order,
and a fatal error raised by any `ask_for_bid` call propagates); `r` models
the draw of `np.random.choice`: the chosen element is
`max_indices[r % len(max_indices)]`, so a uniformly random `r` draws
uniformly among the tied indices.  `np.max` of an empty list raises
`ValueError`.  The `step` argument is unused, as in the source. -/
def select_next_speaker {A : Type} (r : Nat) (askBid : A → Except PyErr Int)
    (st : Nat) (agents : List A) : Except PyErr Nat :=
  match agents.mapM askBid with
  | Except.error e => Except.error e
  | Except.ok bids =>
    match bids with
    | [] => Except.error PyErr.valueError
    | _ :: _ =>
      let mi := maxIndicesOf bids
      Except.ok (mi.getD (r % mi.length) 0)

/-- State of `DialogueSimulator` (source lines 54-62): the roster and the
turn counter `self._step`.  The selection function is passed explicitly to
`step` rather than stored, so that simulator states compare by value. -/
structure DialogueSimulator where
  agents : List DialogueAgent
  _step : Nat
deriving DecidableEq

/-- Embedding of `DialogueSimulator.reset` (source lines 64-66): resets every roster
member; the turn counter is untouched. -/
def DialogueSimulator.reset (s : DialogueSimulator) : DialogueSimulator :=
  { s with agents := s.agents.map DialogueAgent.reset }

/-- Embedding of `DialogueSimulator.inject` (source lines 68-76): every agent receives
the synthetic utterance, then the turn counter is incremented. -/
def DialogueSimulator.inject (s : DialogueSimulator) (name message : String) :
    DialogueSimulator :=
  { agents := s.agents.map (fun a => a.receive name message)
    _step := s._step + 1 }

/-- Embedding of `DialogueSimulator.step` (source lines 78-93): (1) the selection
function applied to the turn counter and roster yields the speaker index
(an error it raises propagates); (2) the agent at that index — and only
that agent — is asked to `send` (an out-of-range index raises
`IndexError`, a backend failure propagates and nothing is mutated);
(3) every agent receives the utterance under the speaker's name;
(4) the turn counter is incremented; (5) the (speaker name, utterance)
pair is returned. -/
def DialogueSimulator.step
    (select : Nat → List DialogueAgent → Except PyErr Nat)
    (model : List Message → Except PyErr String)
    (s : DialogueSimulator) :
    Except PyErr (DialogueSimulator × String × String) :=
  match select s._step s.agents with
  | Except.error e => Except.error e
  | Except.ok idx =>
    match s.agents[idx]? with
    | none => Except.error PyErr.indexError
    | some speaker =>
      match (speaker.send model).2 with
      | Except.error e => Except.error e
      | Except.ok message =>
        Except.ok
          ({ agents := s.agents.map (fun a => a.receive speaker.name message)
             _step := s._step + 1 },
           speaker.name, message)

/-- One driving-loop operation on the simulator: a seed `inject` or a
`step` with a given selection function and backend. -/
inductive SimOp where
  | injectOp (name message : String)
  | stepOp (select : Nat → List DialogueAgent → Except PyErr Nat)
           (model : List Message → Except PyErr String)

/-- Applying one operation: a failing `step` raises before any mutation,
so the run is cut (`none`). -/
def applySimOp (op : SimOp) (s : DialogueSimulator) :
    Option DialogueSimulator :=
  match op with
  | SimOp.injectOp n m => some (s.inject n m)
  | SimOp.stepOp sel model =>
    match DialogueSimulator.step sel model s with
    | Except.ok (s', _, _) => some s'
    | Except.error _ => none

/-- Running a sequence of driving-loop operations. -/
def runSimOps : List SimOp → DialogueSimulator → Option DialogueSimulator
  | [], s => some s
  | op :: ops, s =>
    match applySimOp op s with
    | some s' => runSimOps ops s'
    | none => none

/-- Agent states reachable through the source's own operations:
construction, `receive`, `reset` (`send` and `bid` do not change state). -/
inductive ReachableAgent : DialogueAgent → Prop where
  | init (name sys : String) : ReachableAgent (DialogueAgent.init name sys)
  | recv {a : DialogueAgent} (n m : String) :
      ReachableAgent a → ReachableAgent (a.receive n m)
  | rst {a : DialogueAgent} : ReachableAgent a → ReachableAgent a.reset

/-- All transcripts of the simulator equal `h` (transcript synchrony). -/
def synced (s : DialogueSimulator) (h : List String) : Prop :=
  ∀ a ∈ s.agents, a.message_history = h

/-- Concrete two-member roster used to evaluate the claims on one input. -/
def simW : DialogueSimulator :=
  { agents := [DialogueAgent.init "A" "sysA", DialogueAgent.init "B" "sysB"]
    _step := 0 }

/-- Concrete driving-loop sequence: one seed injection, then one step whose
selection picks index 0 and whose backend answers `"hi"`. -/
def opsW : List SimOp :=
  [SimOp.injectOp "Narrator" "Hello",
   SimOp.stepOp (fun _ _ => Except.ok 0) (fun _ => Except.ok "hi")]

/-- The simulator state after running `opsW` from `simW.reset`. -/
def simStateAfter : DialogueSimulator :=
  (runSimOps opsW simW.reset).getD { agents := [], _step := 0 }

/-- Concrete bidding agent used to evaluate the claims on one input. -/
def bW : BiddingDialogueAgent :=
  { toDialogueAgent := DialogueAgent.init "A" "sysA"
    bidding_template :=
      "T \x7bmessage_history\x7d U \x7brecent_message\x7d V" }

/-! ## Helper lemmas -/

theorem digit_char_facts {c : Char} (h : isAsciiDigit c = true) :
    isPySpace c = false ∧ c ≠ '+' ∧ c ≠ '-' ∧ c ≠ '_' := by
  have h' := h
  simp only [isAsciiDigit, Bool.and_eq_true, decide_eq_true_eq] at h'
  refine ⟨?_, ?_, ?_, ?_⟩
  · simp only [isPySpace, Bool.or_eq_false_iff, decide_eq_false_iff_not]
    omega
  · intro hc; subst hc; exact absurd h (by decide)
  · intro hc; subst hc; exact absurd h (by decide)
  · intro hc; subst hc; exact absurd h (by decide)

theorem all_digits_pyDigRest : ∀ (l : List Char),
    (∀ c ∈ l, isAsciiDigit c = true) → pyDigRest l = some l := by
  intro l
  induction l with
  | nil => intro _; rfl
  | cons c rest ih =>
    intro h
    have hc := h c (List.mem_cons_self c rest)
    rw [pyDigRest.eq_def]
    dsimp only
    rw [if_neg (digit_char_facts hc).2.2.2, if_pos hc,
      ih (fun d hd => h d (List.mem_cons_of_mem c hd))]
    rfl

theorem all_digits_pyNatCore (l : List Char) (hne : l ≠ [])
    (h : ∀ c ∈ l, isAsciiDigit c = true) :
    pyNatCore l = some (digitsVal l) := by
  cases l with
  | nil => exact absurd rfl hne
  | cons c rest =>
    have hc := h c (List.mem_cons_self c rest)
    simp only [pyNatCore]
    rw [if_pos hc,
      all_digits_pyDigRest rest (fun d hd => h d (List.mem_cons_of_mem c hd))]
    rfl

theorem dropWhile_eq_self_of_not (p : Char → Bool) (l : List Char)
    (h : ∀ c ∈ l, p c = false) : l.dropWhile p = l := by
  cases l with
  | nil => rfl
  | cons c rest =>
    rw [List.dropWhile_cons, if_neg]
    simp [h c (List.mem_cons_self c rest)]

theorem pyIntOfString_digits (l : List Char) (hne : l ≠ [])
    (h : ∀ c ∈ l, isAsciiDigit c = true) :
    pyIntOfString (String.mk l) = some ((digitsVal l : Nat) : Int) := by
  have hsp : ∀ c ∈ l, isPySpace c = false :=
    fun c hc => (digit_char_facts (h c hc)).1
  have hdata : (String.mk l).data = l := rfl
  unfold pyIntOfString
  rw [hdata, dropWhile_eq_self_of_not isPySpace l hsp,
    dropWhile_eq_self_of_not isPySpace l.reverse
      (fun c hc => hsp c (List.mem_reverse.mp hc)),
    List.reverse_reverse]
  cases l with
  | nil => exact absurd rfl hne
  | cons c rest =>
    have hc := h c (List.mem_cons_self c rest)
    simp only [pyIntCore]
    rw [if_neg (digit_char_facts hc).2.1, if_neg (digit_char_facts hc).2.2.1,
      all_digits_pyNatCore (c :: rest) (by simp) h]
    rfl

theorem reSearchBid_digits : ∀ (l : List Char) (ds : List Char),
    reSearchBid l = some ds → ds ≠ [] ∧ ∀ c ∈ ds, isAsciiDigit c = true := by
  intro l
  induction l with
  | nil => intro ds h; exact absurd h (by simp [reSearchBid])
  | cons c rest ih =>
    intro ds h
    rw [reSearchBid] at h
    split at h
    · rename_i hcond
      simp only [Option.some.injEq] at h
      subst h
      exact ⟨hcond.2.1, fun x hx => List.mem_takeWhile_imp hx⟩
    · exact ih ds h

/-! ## Claim C1 -/

/-- C1 (counterexample): the claim says every input without a `<digits>`
substring makes the bid parser fail with a format error; but on the input
`"7"` the regex finds no match (`reSearchBid` returns `none`), yet the
parser returns the bid `7` instead of failing, because `bid_parser` is
configured with `default_output_key="bid"` and therefore falls back to the
whole response text, which `int` parses. -/
theorem C1_counterexample :
    reSearchBid (String.data "7") = none ∧ parseBidInt "7" = Except.ok 7 :=
  ⟨rfl, rfl⟩

/-- C1 (amended): for every input containing a `<digits>` substring the
parser returns exactly the integer captured from the first such substring;
for every input with no such substring the parser falls back to the whole
text (the `default_output_key` of `bid_parser`): it returns `int(text)`
when the entire text parses as a Python integer, and fails with a
`ValueError` otherwise. -/
theorem C1_parseBid_amended (s : String) :
    (∀ ds, reSearchBid s.data = some ds →
      parseBidInt s = Except.ok ((digitsVal ds : Nat) : Int)) ∧
    (reSearchBid s.data = none →
      parseBidInt s =
        match pyIntOfString s with
        | some n => Except.ok n
        | none => Except.error PyErr.valueError) := by
  constructor
  · intro ds hds
    obtain ⟨hne, hdig⟩ := reSearchBid_digits s.data ds hds
    unfold parseBidInt bid_parser_parse
    rw [hds, pyIntOfString_digits ds hne hdig]
  · intro hnone
    unfold parseBidInt bid_parser_parse
    rw [hnone]

/-- C1 (witness): the amended theorem evaluated at `"ab<12>cd"`. -/
theorem C1_parseBid_amended_witness : parseBidInt "ab<12>cd" = Except.ok 12 :=
  (C1_parseBid_amended "ab<12>cd").1 ['1', '2'] (by decide)

/-! ## Claim C2 -/

/-- C2: `ask_for_bid` retries the whole bid-and-parse sequence exactly once
more when the first attempt fails with the transient (`ValueError`) kind —
which includes a bid-format parse failure, since `parseBidInt` raises
`ValueError`; if both attempts fail this way it returns the fallback bid
`0` and raises nothing; an error of any other kind propagates immediately,
whether it occurs on the first attempt (no retry) or on the retry (no
fallback). -/
theorem C2_ask_for_bid_spec (tries : Nat → Except PyErr String) :
    (∀ n, attemptBid (tries 0) = Except.ok n →
      ask_for_bid tries = Except.ok n) ∧
    (∀ n, attemptBid (tries 0) = Except.error PyErr.valueError →
      attemptBid (tries 1) = Except.ok n →
      ask_for_bid tries = Except.ok n) ∧
    (attemptBid (tries 0) = Except.error PyErr.valueError →
      attemptBid (tries 1) = Except.error PyErr.valueError →
      ask_for_bid tries = Except.ok 0) ∧
    (∀ e, e ≠ PyErr.valueError →
      attemptBid (tries 0) = Except.error e →
      ask_for_bid tries = Except.error e) ∧
    (∀ e, e ≠ PyErr.valueError →
      attemptBid (tries 0) = Except.error PyErr.valueError →
      attemptBid (tries 1) = Except.error e →
      ask_for_bid tries = Except.error e) := by
  refine ⟨?_, ?_, ?_, ?_, ?_⟩
  · intro n h0
    unfold ask_for_bid
    rw [h0]
  · intro n h0 h1
    unfold ask_for_bid
    rw [h0, h1]
  · intro h0 h1
    unfold ask_for_bid
    rw [h0, h1]
  · intro e hne h0
    unfold ask_for_bid
    rw [h0]
    cases e with
    | valueError => exact absurd rfl hne
    | indexError => rfl
    | otherError => rfl
  · intro e hne h0 h1
    unfold ask_for_bid
    rw [h0, h1]
    cases e with
    | valueError => exact absurd rfl hne
    | indexError => rfl
    | otherError => rfl

/-- C2 (witness): a response without the bid format on both attempts is a
double `ValueError`, so the fallback bid `0` is returned. -/
theorem C2_ask_for_bid_spec_witness :
    ask_for_bid (fun _ => Except.ok "garbage") = Except.ok 0 :=
  (C2_ask_for_bid_spec (fun _ => Except.ok "garbage")).2.2.1 (by decide)
    (by decide)

/-! ## Claim C3: helper lemmas -/

theorem foldl_max_mem (b : Int) :
    ∀ (r : List Int), r.foldl max b = b ∨ r.foldl max b ∈ r := by
  intro r
  induction r generalizing b with
  | nil => exact Or.inl rfl
  | cons c r ih =>
    rcases ih (max b c) with h1 | h1
    · rcases max_choice b c with h2 | h2
      · exact Or.inl (by rw [List.foldl_cons, h1, h2])
      · refine Or.inr ?_
        rw [List.foldl_cons, h1, h2]
        exact List.mem_cons_self c r
    · exact Or.inr (List.mem_cons_of_mem c (by rw [List.foldl_cons]; exact h1))

theorem maxValueOf_mem (bids : List Int) (h : bids ≠ []) :
    maxValueOf bids ∈ bids := by
  cases bids with
  | nil => exact absurd rfl h
  | cons b r =>
    show r.foldl max b ∈ b :: r
    rcases foldl_max_mem b r with h1 | h1
    · rw [h1]; exact List.mem_cons_self b r
    · exact List.mem_cons_of_mem b h1

theorem mem_maxIndicesOf {bids : List Int} {i : Nat} :
    i ∈ maxIndicesOf bids ↔
      i < bids.length ∧ bids.getD i 0 = maxValueOf bids := by
  simp [maxIndicesOf, List.mem_filter, List.mem_range]

theorem maxIndicesOf_ne_nil {bids : List Int} (h : bids ≠ []) :
    maxIndicesOf bids ≠ [] := by
  have hm := maxValueOf_mem bids h
  rw [List.mem_iff_getElem] at hm
  obtain ⟨i, hi, hgi⟩ := hm
  exact List.ne_nil_of_mem
    (mem_maxIndicesOf.mpr ⟨hi, by rw [List.getD_eq_getElem _ _ hi, hgi]⟩)

theorem getD_mod_mem (l : List Nat) (r : Nat) (h : l ≠ []) :
    l.getD (r % l.length) 0 ∈ l := by
  have hlt : r % l.length < l.length := Nat.mod_lt r (List.length_pos.mpr h)
  rw [List.getD_eq_getElem l 0 hlt]
  exact List.getElem_mem hlt

theorem range_map_getD_mod (l : List Nat) :
    (List.range l.length).map (fun r => l.getD (r % l.length) 0) = l := by
  apply List.ext_getElem
  · simp
  · intro i h1 h2
    simp only [List.getElem_map, List.getElem_range]
    rw [Nat.mod_eq_of_lt h2, List.getD_eq_getElem l 0 h2]

theorem select_next_speaker_ok {A : Type} (r st : Nat)
    (askBid : A → Except PyErr Int) (agents : List A) (bids : List Int)
    (hm : agents.mapM askBid = Except.ok bids) (hne : bids ≠ []) :
    select_next_speaker r askBid st agents =
      Except.ok
        ((maxIndicesOf bids).getD (r % (maxIndicesOf bids).length) 0) := by
  unfold select_next_speaker
  rw [hm]
  cases bids with
  | nil => exact absurd rfl hne
  | cons b rest => rfl

/-! ## Claim C3 -/

/-- C3: `select_next_speaker` collects one bid per roster member (in roster
order: the sequential `mapM` embeds the source's loop) and returns an index
achieving the maximum bid; when the maximum is unique the result is that
index for every value of the random source; when several indices tie, one
period of the random source enumerates exactly the tied indices, each once
(uniformity given a uniform draw); concretely, bids resolving to
`[1, 9, 4]` through the real `ask_for_bid` pipeline give index `1` for
every random draw, and the enclosing `step()` then returns that agent's
name as the speaker. -/
theorem C3_select_speaker_spec :
    (∀ (A : Type) (askBid : A → Except PyErr Int) (r st : Nat)
        (agents : List A) (bids : List Int),
      agents.mapM askBid = Except.ok bids → bids ≠ [] →
      ∃ i, select_next_speaker r askBid st agents = Except.ok i ∧
        i < bids.length ∧ bids.getD i 0 = maxValueOf bids) ∧
    (∀ (A : Type) (askBid : A → Except PyErr Int) (st : Nat)
        (agents : List A) (bids : List Int) (i : Nat),
      agents.mapM askBid = Except.ok bids → maxIndicesOf bids = [i] →
      ∀ r, select_next_speaker r askBid st agents = Except.ok i) ∧
    (∀ (A : Type) (askBid : A → Except PyErr Int) (st : Nat)
        (agents : List A) (bids : List Int),
      agents.mapM askBid = Except.ok bids → bids ≠ [] →
      (maxIndicesOf bids).Nodup ∧
      (List.range (maxIndicesOf bids).length).map
          (fun r => select_next_speaker r askBid st agents) =
        (maxIndicesOf bids).map Except.ok) ∧
    (∀ r st, select_next_speaker r ask_for_bid st
        [fun _ => Except.ok "<1>", fun _ => Except.ok "<9>",
         fun _ => Except.ok "<4>"] = Except.ok 1) ∧
    (∀ (s : DialogueSimulator)
        (select : Nat → List DialogueAgent → Except PyErr Nat)
        (model : List Message → Except PyErr String)
        (sp : DialogueAgent) (msg : String),
      select s._step s.agents = Except.ok 1 → s.agents[1]? = some sp →
      model sp.sendRequest = Except.ok msg →
      DialogueSimulator.step select model s =
        Except.ok ({ agents := s.agents.map (fun a => a.receive sp.name msg),
                     _step := s._step + 1 }, sp.name, msg)) := by
  refine ⟨?_, ?_, ?_, ?_, ?_⟩
  · intro A askBid r st agents bids hm hne
    refine ⟨(maxIndicesOf bids).getD (r % (maxIndicesOf bids).length) 0,
      select_next_speaker_ok r st askBid agents bids hm hne, ?_⟩
    exact mem_maxIndicesOf.mp
      (getD_mod_mem (maxIndicesOf bids) r (maxIndicesOf_ne_nil hne))
  · intro A askBid st agents bids i hm hmi r
    have hne : bids ≠ [] := by
      intro h
      subst h
      exact absurd hmi (by simp [maxIndicesOf])
    rw [select_next_speaker_ok r st askBid agents bids hm hne, hmi]
    simp [Nat.mod_one]
  · intro A askBid st agents bids hm hne
    refine ⟨List.Nodup.filter _ (List.nodup_range _), ?_⟩
    have h1 : (List.range (maxIndicesOf bids).length).map
        (fun r => select_next_speaker r askBid st agents) =
      (List.range (maxIndicesOf bids).length).map
        (fun r => Except.ok
          ((maxIndicesOf bids).getD (r % (maxIndicesOf bids).length) 0)) :=
      List.map_congr_left
        (fun r _ => select_next_speaker_ok r st askBid agents bids hm hne)
    rw [h1,
      show (fun r => Except.ok
          ((maxIndicesOf bids).getD (r % (maxIndicesOf bids).length) 0)
          : Nat → Except PyErr Nat) =
        Except.ok ∘
          (fun r =>
            (maxIndicesOf bids).getD (r % (maxIndicesOf bids).length) 0)
        from rfl,
      ← List.map_map, range_map_getD_mod (maxIndicesOf bids)]
  · intro r st
    rw [select_next_speaker_ok r st ask_for_bid
        [fun _ => Except.ok "<1>", fun _ => Except.ok "<9>",
         fun _ => Except.ok "<4>"] [1, 9, 4] rfl (by decide),
      show maxIndicesOf [1, 9, 4] = [1] from by decide]
    simp [Nat.mod_one]
  · intro s select model sp msg hsel hsp hmod
    unfold DialogueSimulator.step
    rw [hsel]
    dsimp only
    rw [hsp]
    dsimp only
    have h2 : (sp.send model).2 = Except.ok msg := hmod
    rw [h2]

/-- C3 (witness): the unique-maximum conjunct evaluated on the concrete
roster of the scenario, drawing the bids `[1, 9, 4]` through `ask_for_bid`
with random draw `7`. -/
theorem C3_select_speaker_spec_witness :
    select_next_speaker 7 ask_for_bid 0
        [fun _ => Except.ok "<1>", fun _ => Except.ok "<9>",
         fun _ => Except.ok "<4>"] = Except.ok 1 :=
  C3_select_speaker_spec.2.2.2.1 7 0

/-! ## Claim C4 -/

/-- C4: every successful `step()` performs exactly, in order: it obtains
the winning index from the selection strategy applied to the current turn
counter and roster; it calls `send` on the agent at that index and on no
other agent (the outcome depends on the backend only through its value at
the speaker's request); it appends the utterance prefixed by the speaker's
name to every agent's transcript, including the speaker's, via `receive`;
it increments the turn counter by exactly one; and it returns the
(speaker name, utterance) pair. -/
theorem C4_step_spec (s : DialogueSimulator)
    (select : Nat → List DialogueAgent → Except PyErr Nat)
    (model : List Message → Except PyErr String)
    (idx : Nat) (speaker : DialogueAgent) (msg : String)
    (hsel : select s._step s.agents = Except.ok idx)
    (hsp : s.agents[idx]? = some speaker)
    (hmod : model speaker.sendRequest = Except.ok msg) :
    DialogueSimulator.step select model s =
      Except.ok
        ({ agents := s.agents.map (fun a => a.receive speaker.name msg),
           _step := s._step + 1 }, speaker.name, msg) ∧
    (∀ a ∈ s.agents, (a.receive speaker.name msg).message_history =
      a.message_history ++ [speaker.name ++ ": " ++ msg]) ∧
    (∀ model₂ : List Message → Except PyErr String,
      model₂ speaker.sendRequest = model speaker.sendRequest →
      DialogueSimulator.step select model₂ s =
        DialogueSimulator.step select model s) := by
  refine ⟨?_, fun a _ => rfl, ?_⟩
  · unfold DialogueSimulator.step
    rw [hsel]
    dsimp only
    rw [hsp]
    dsimp only
    have h2 : (speaker.send model).2 = Except.ok msg := hmod
    rw [h2]
  · intro model₂ heq
    unfold DialogueSimulator.step
    rw [hsel]
    dsimp only
    rw [hsp]
    dsimp only
    have h2 : (speaker.send model₂).2 = (speaker.send model).2 := heq
    rw [h2]

/-- C4 (witness): one step on the concrete two-agent simulator, selection
picking index 0 and the backend answering `"hi"`. -/
theorem C4_step_spec_witness :
    DialogueSimulator.step (fun _ _ => Except.ok 0)
        (fun _ => Except.ok "hi") simW =
      Except.ok
        ({ agents := simW.agents.map (fun a => a.receive "A" "hi"),
           _step := simW._step + 1 }, "A", "hi") :=
  (C4_step_spec simW (fun _ _ => Except.ok 0) (fun _ => Except.ok "hi") 0
    (DialogueAgent.init "A" "sysA") "hi" rfl rfl rfl).1

/-! ## Claim C10 -/

/-- C10: the default selection strategy ignores the turn counter: for any
two counter values the result is identical, whatever the roster, the bid
outcomes and the random source. -/
theorem C10_step_counter_ignored {A : Type} (r : Nat)
    (askBid : A → Except PyErr Int) (n m : Nat) (agents : List A) :
    select_next_speaker r askBid n agents =
      select_next_speaker r askBid m agents := rfl

/-! ## Claim C8 -/

/-- C8: the simulator's `reset` leaves the turn counter unchanged, resets
every roster member, an agent reset sets its transcript to exactly the
single sentinel line, and the operation is idempotent. -/
theorem C8_reset_spec :
    (∀ s : DialogueSimulator, (s.reset)._step = s._step) ∧
    (∀ s : DialogueSimulator,
      (s.reset).agents = s.agents.map DialogueAgent.reset) ∧
    (∀ a : DialogueAgent, (a.reset).message_history = [sentinelLine]) ∧
    (∀ s : DialogueSimulator, s.reset.reset = s.reset) := by
  refine ⟨fun s => rfl, fun s => rfl, fun a => rfl, fun s => ?_⟩
  unfold DialogueSimulator.reset
  simp only [List.map_map]
  congr 1

/-! ## Claim C7 -/

/-- C7: neither `send` nor `bid` modifies the calling agent's state, on
success or failure; a backend error inside `send` propagates unchanged with
no retry at this layer, and `bid`'s result is exactly the backend's answer
to the rendered bid prompt, so a backend error there propagates too. -/
theorem C7_send_bid_frame :
    (∀ (model : List Message → Except PyErr String) (a : DialogueAgent),
      (a.send model).1 = a) ∧
    (∀ (model : List Message → Except PyErr String)
        (b : BiddingDialogueAgent), (b.bid model).1 = b) ∧
    (∀ (model : List Message → Except PyErr String) (a : DialogueAgent)
        (e : PyErr), model a.sendRequest = Except.error e →
      (a.send model).2 = Except.error e) ∧
    (∀ (model : List Message → Except PyErr String)
        (b : BiddingDialogueAgent) (recent : String),
      b.message_history.getLast? = some recent →
      (b.bid model).2 = model [⟨Role.system, b.bidPrompt recent⟩]) := by
  refine ⟨fun model a => rfl, ?_, fun model a e h => h, ?_⟩
  · intro model b
    unfold BiddingDialogueAgent.bid
    cases b.message_history.getLast? <;> rfl
  · intro model b recent h
    unfold BiddingDialogueAgent.bid
    rw [h]

/-- C7 (witness): a failing backend's error comes back unchanged from
`send`, and `bid` on the concrete bidding agent returns exactly the
backend's answer to its rendered prompt. -/
theorem C7_send_bid_frame_witness :
    ((DialogueAgent.init "A" "sysA").send
        (fun _ => Except.error PyErr.otherError)).2 =
      Except.error PyErr.otherError ∧
    (bW.bid (fun _ => Except.error PyErr.otherError)).2 =
      Except.error PyErr.otherError :=
  ⟨C7_send_bid_frame.2.2.1 (fun _ => Except.error PyErr.otherError)
      (DialogueAgent.init "A" "sysA") PyErr.otherError rfl,
   C7_send_bid_frame.2.2.2 (fun _ => Except.error PyErr.otherError) bW
      sentinelLine rfl⟩

/-! ## Claim C9 -/

/-- C9: the constructor itself installs the sentinel-only transcript, every
reachable agent state has a non-empty transcript, and therefore `bid`'s
access to `message_history[-1]` is always defined: `bid` returns exactly
the backend's answer to the rendered prompt and never the `IndexError` of
a missing last element. -/
theorem C9_history_nonempty :
    (∀ name sys, (DialogueAgent.init name sys).message_history =
      [sentinelLine]) ∧
    (∀ a : DialogueAgent, ReachableAgent a → a.message_history ≠ []) ∧
    (∀ b : BiddingDialogueAgent, ReachableAgent b.toDialogueAgent →
      ∀ model, ∃ recent, b.message_history.getLast? = some recent ∧
        (b.bid model).2 = model [⟨Role.system, b.bidPrompt recent⟩]) := by
  have hne : ∀ a : DialogueAgent, ReachableAgent a →
      a.message_history ≠ [] := by
    intro a h
    induction h with
    | init name sys => simp [DialogueAgent.init, DialogueAgent.reset]
    | recv n m _ ih => simp [DialogueAgent.receive]
    | rst _ ih => simp [DialogueAgent.reset]
  refine ⟨fun name sys => rfl, hne, ?_⟩
  intro b hb model
  have h1 : b.message_history ≠ [] := hne b.toDialogueAgent hb
  rw [← List.getLast?_isSome, Option.isSome_iff_exists] at h1
  obtain ⟨recent, hr⟩ := h1
  refine ⟨recent, hr, ?_⟩
  unfold BiddingDialogueAgent.bid
  rw [hr]

/-- C9 (witness): the freshly constructed concrete bidding agent has the
sentinel as its last transcript line and its `bid` reaches the backend. -/
theorem C9_history_nonempty_witness :
    ∃ recent, bW.message_history.getLast? = some recent ∧
      (bW.bid (fun _ => Except.ok "<3>")).2 =
        (fun _ : List Message => Except.ok "<3>")
          [⟨Role.system, bW.bidPrompt recent⟩] :=
  C9_history_nonempty.2.2 bW (ReachableAgent.init "A" "sysA")
    (fun _ => Except.ok "<3>")

/-! ## Claim C6 -/

theorem joinLines_append_singleton :
    ∀ (l : List String), l ≠ [] → ∀ x : String,
      joinLines (l ++ [x]) = joinLines l ++ "\n" ++ x := by
  intro l
  induction l with
  | nil => intro h; exact absurd rfl h
  | cons a rest ih =>
    intro _ x
    cases rest with
    | nil => rfl
    | cons b r =>
      show a ++ "\n" ++ joinLines ((b :: r) ++ [x]) =
        (a ++ "\n" ++ joinLines (b :: r)) ++ "\n" ++ x
      rw [ih (by simp) x]
      simp [String.append_assoc]

/-- C6: `inject(name, message)` appends the single line
`"<name>: <message>"` to every agent's transcript (the label need not be a
roster member's name) and increments the turn counter by exactly one; and
after `inject("Narrator", "Hello")` the request any roster member — in
particular the next step's winning agent — builds in `send()` carries the
transcript line `"Narrator: Hello"` immediately before the trailing
`"<name>: "` prompt fragment. -/
theorem C6_inject_spec :
    (∀ (s : DialogueSimulator) (n m : String),
      (s.inject n m)._step = s._step + 1) ∧
    (∀ (s : DialogueSimulator) (n m : String),
      (s.inject n m).agents = s.agents.map (fun a => a.receive n m)) ∧
    (∀ (a : DialogueAgent) (n m : String),
      (a.receive n m).message_history =
        a.message_history ++ [n ++ ": " ++ m]) ∧
    (∀ a : DialogueAgent, a.message_history ≠ [] →
      (a.receive "Narrator" "Hello").sendRequest =
        [⟨Role.system, a.system_message⟩,
         ⟨Role.user, joinLines a.message_history ++ "\nNarrator: Hello\n" ++
            a.prefixString⟩]) := by
  refine ⟨fun s n m => rfl, fun s n m => rfl, fun a n m => rfl, ?_⟩
  intro a h
  show [(⟨Role.system, a.system_message⟩ : Message),
    ⟨Role.user, joinLines ((a.message_history ++ ["Narrator: Hello"]) ++
      [a.prefixString])⟩] = _
  rw [joinLines_append_singleton (a.message_history ++ ["Narrator: Hello"])
      (by simp) a.prefixString,
    joinLines_append_singleton a.message_history h "Narrator: Hello",
    show ("\nNarrator: Hello\n" : String) = "\n" ++ "Narrator: Hello" ++ "\n"
      from rfl]
  simp [String.append_assoc]

/-- C6 (witness): the scenario conjunct evaluated on a freshly constructed
agent, whose transcript is the nonempty sentinel line. -/
theorem C6_inject_spec_witness :
    ((DialogueAgent.init "A" "sysA").receive "Narrator" "Hello").sendRequest =
      [⟨Role.system, "sysA"⟩,
       ⟨Role.user, sentinelLine ++ "\nNarrator: Hello\n" ++ "A: "⟩] :=
  C6_inject_spec.2.2.2 (DialogueAgent.init "A" "sysA")
    (by simp [DialogueAgent.init, DialogueAgent.reset])

/-! ## Claim C5 -/

theorem synced_inject {s : DialogueSimulator} {h : List String}
    (hs : synced s h) (n m : String) :
    synced (s.inject n m) (h ++ [n ++ ": " ++ m]) := by
  intro a ha
  simp only [DialogueSimulator.inject, List.mem_map] at ha
  obtain ⟨a0, ha0, rfl⟩ := ha
  show a0.message_history ++ [n ++ ": " ++ m] = h ++ [n ++ ": " ++ m]
  rw [hs a0 ha0]

theorem synced_step {s s' : DialogueSimulator}
    {sel : Nat → List DialogueAgent → Except PyErr Nat}
    {model : List Message → Except PyErr String} {h : List String}
    {nm msg : String}
    (hs : synced s h)
    (hstep : DialogueSimulator.step sel model s = Except.ok (s', nm, msg)) :
    synced s' (h ++ [nm ++ ": " ++ msg]) := by
  cases hsel : sel s._step s.agents with
  | error e =>
    have hred : DialogueSimulator.step sel model s = Except.error e := by
      unfold DialogueSimulator.step
      rw [hsel]
    rw [hred] at hstep
    simp at hstep
  | ok idx =>
    cases hsp : s.agents[idx]? with
    | none =>
      have hred : DialogueSimulator.step sel model s =
          Except.error PyErr.indexError := by
        unfold DialogueSimulator.step
        rw [hsel]
        dsimp only
        rw [hsp]
      rw [hred] at hstep
      simp at hstep
    | some speaker =>
      cases hmod : (speaker.send model).2 with
      | error e =>
        have hred : DialogueSimulator.step sel model s = Except.error e := by
          unfold DialogueSimulator.step
          rw [hsel]
          dsimp only
          rw [hsp]
          dsimp only
          rw [hmod]
        rw [hred] at hstep
        simp at hstep
      | ok message =>
        have hcomp : DialogueSimulator.step sel model s =
            Except.ok
              ({ agents :=
                  s.agents.map (fun a => a.receive speaker.name message),
                 _step := s._step + 1 }, speaker.name, message) := by
          unfold DialogueSimulator.step
          rw [hsel]
          dsimp only
          rw [hsp]
          dsimp only
          rw [hmod]
        rw [hcomp] at hstep
        simp only [Except.ok.injEq, Prod.mk.injEq] at hstep
        obtain ⟨h1, h2, h3⟩ := hstep
        subst h2
        subst h3
        subst h1
        intro a ha
        simp only [List.mem_map] at ha
        obtain ⟨a0, ha0, rfl⟩ := ha
        show a0.message_history ++ [speaker.name ++ ": " ++ message] = _
        rw [hs a0 ha0]

theorem synced_runSimOps :
    ∀ (ops : List SimOp) (s s' : DialogueSimulator) (h : List String),
      synced s h → runSimOps ops s = some s' →
      ∃ ext, synced s' (h ++ ext) ∧ ext.length = ops.length ∧
        ∀ l ∈ ext, ∃ n m, l = n ++ ": " ++ m := by
  intro ops
  induction ops with
  | nil =>
    intro s s' h hs hrun
    simp only [runSimOps, Option.some.injEq] at hrun
    subst hrun
    exact ⟨[], by simpa using hs, rfl, by simp⟩
  | cons op ops ih =>
    intro s s' h hs hrun
    simp only [runSimOps] at hrun
    cases happ : applySimOp op s with
    | none =>
      rw [happ] at hrun
      simp at hrun
    | some s1 =>
      rw [happ] at hrun
      dsimp only at hrun
      cases op with
      | injectOp n m =>
        simp only [applySimOp, Option.some.injEq] at happ
        subst happ
        obtain ⟨ext, hsync, hlen, hform⟩ :=
          ih (s.inject n m) s' (h ++ [n ++ ": " ++ m])
            (synced_inject hs n m) hrun
        refine ⟨(n ++ ": " ++ m) :: ext, ?_, by simp [hlen], ?_⟩
        · rw [show h ++ (n ++ ": " ++ m) :: ext =
              (h ++ [n ++ ": " ++ m]) ++ ext by simp]
          exact hsync
        · intro l hl
          rcases List.mem_cons.mp hl with rfl | hl2
          · exact ⟨n, m, rfl⟩
          · exact hform l hl2
      | stepOp sel model =>
        unfold applySimOp at happ
        dsimp only at happ
        cases hstep : DialogueSimulator.step sel model s with
        | error e =>
          rw [hstep] at happ
          simp at happ
        | ok t =>
          obtain ⟨s2, nm, msg⟩ := t
          rw [hstep] at happ
          dsimp only at happ
          simp only [Option.some.injEq] at happ
          subst happ
          obtain ⟨ext, hsync, hlen, hform⟩ :=
            ih s2 s' (h ++ [nm ++ ": " ++ msg])
              (synced_step hs hstep) hrun
          refine ⟨(nm ++ ": " ++ msg) :: ext, ?_, by simp [hlen], ?_⟩
          · rw [show h ++ (nm ++ ": " ++ msg) :: ext =
                (h ++ [nm ++ ": " ++ msg]) ++ ext by simp]
            exact hsync
          · intro l hl
            rcases List.mem_cons.mp hl with rfl | hl2
            · exact ⟨nm, msg, rfl⟩
            · exact hform l hl2

/-- C5: starting from `reset()`, after every completed sequence of `inject`
and `step` calls all agents' transcripts are identical: each equals the
sentinel line followed by exactly one broadcast line per completed
operation, every such line of the form `"<name>: <utterance>"` — in
particular, after `reset()` followed by `N` successful `step()` calls every
transcript is exactly the sentinel plus `N` broadcast lines, and the
private trailing prompt suffix built inside `send`/`bid` is never
persisted. -/
theorem C5_transcript_sync (s0 : DialogueSimulator) (ops : List SimOp)
    (s' : DialogueSimulator)
    (hrun : runSimOps ops s0.reset = some s') :
    ∃ ext, (∀ a ∈ s'.agents, a.message_history = sentinelLine :: ext) ∧
      ext.length = ops.length ∧
      ∀ l ∈ ext, ∃ n m, l = n ++ ": " ++ m := by
  have hs : synced s0.reset [sentinelLine] := by
    intro a ha
    simp only [DialogueSimulator.reset, List.mem_map] at ha
    obtain ⟨a0, _, rfl⟩ := ha
    rfl
  obtain ⟨ext, hsync, hlen, hform⟩ :=
    synced_runSimOps ops s0.reset s' [sentinelLine] hs hrun
  exact ⟨ext, fun a ha => by simpa using hsync a ha, hlen, hform⟩

/-- C5 (witness): the concrete run `reset; inject; step` on the two-agent
simulator, whose resulting state is computed by evaluation. -/
theorem C5_transcript_sync_witness :
    ∃ ext,
      (∀ a ∈ simStateAfter.agents,
        a.message_history = sentinelLine :: ext) ∧
      ext.length = 2 ∧ ∀ l ∈ ext, ∃ n m, l = n ++ ": " ++ m :=
  C5_transcript_sync simW opsW simStateAfter rfl
